import Mathlib

/-!
Verification development for the bank-alert income/tax tracker
(`src/App.jsx`).  The classification, field-extraction and tax-engine
functions are embedded shallowly: texts are lists of characters, money
is exact rational arithmetic, and the JavaScript regular expressions
used by the source are modelled by a small executable matcher covering
exactly the constructs those patterns use (literals, word boundaries,
whitespace runs, `[:\s]+` runs, and the any-character behaviour that a
`.` inside an interpolated user name acquires, since the source
interpolates the profile name into the pattern text without escaping).
-/

namespace TaxApp

/-! ### Character and list utilities (JS string primitives) -/

/-- JS `\w` word characters: ASCII letters, digits, underscore. -/
def isWordChar (c : Char) : Bool :=
  c.isAlpha || c.isDigit || c == '_'

/-- Convert a Lean string literal to the character-list representation. -/
def strL (s : String) : List Char :=
  s.toList

/-- JS `String.prototype.toLowerCase` (ASCII range, which is all the source uses). -/
def lowerL (cs : List Char) : List Char :=
  cs.map Char.toLower

/-- JS `String.prototype.trim`: drop whitespace from both ends. -/
def trimL (cs : List Char) : List Char :=
  ((cs.dropWhile Char.isWhitespace).reverse.dropWhile Char.isWhitespace).reverse

/-- Does `hay` start with `needle`? -/
def startsWithL : List Char → List Char → Bool
  | [], _ => true
  | _ :: _, [] => false
  | a :: as, b :: bs => (a == b) && startsWithL as bs

/-- JS `String.prototype.includes`: substring containment. -/
def containsL (needle : List Char) : List Char → Bool
  | [] => startsWithL needle []
  | d :: t => startsWithL needle (d :: t) || containsL needle t

/-! ### A small executable model of the regular expressions used by the source

Each pattern the source builds with `new RegExp` is a sequence of the
items below.  `test` semantics (a match may start anywhere) are given by
`testPattern`. -/

/-- One element of a compiled pattern. -/
inductive RItem where
  /-- a literal character -/
  | lit (c : Char)
  /-- `.` : any character except a newline -/
  | anyc
  /-- `\b` : a word boundary (consumes nothing) -/
  | wb
  /-- `\s+` : one or more whitespace characters -/
  | wsPlus
  /-- `[:\s]+` : one or more colon-or-whitespace characters -/
  | colonWsPlus
deriving DecidableEq

/-- Is the character before the current position a word character? -/
def prevIsWord : Option Char → Bool
  | none => false
  | some c => isWordChar c

/-- Is the character at the current position a word character? -/
def headIsWord : List Char → Bool
  | [] => false
  | c :: _ => isWordChar c

/-- All ways a single item can consume input: each result is the last
consumed character together with the remaining text. -/
def wsRuns : List Char → List (Option Char × List Char)
  | [] => []
  | d :: t => if d.isWhitespace then (some d, t) :: wsRuns t else []

/-- Nonempty runs of colon-or-whitespace characters. -/
def colonWsRuns : List Char → List (Option Char × List Char)
  | [] => []
  | d :: t => if d == ':' || d.isWhitespace then (some d, t) :: colonWsRuns t else []

/-- Match one pattern item at the current position; returns every
possible (previous character, remaining text) continuation. -/
def stepItem : RItem → Option Char → List Char → List (Option Char × List Char)
  | .lit c, _, d :: t => if d == c then [(some d, t)] else []
  | .lit _, _, [] => []
  | .anyc, _, d :: t => if d == '\n' then [] else [(some d, t)]
  | .anyc, _, [] => []
  | .wb, prev, t => if prevIsWord prev != headIsWord t then [(prev, t)] else []
  | .wsPlus, _, t => wsRuns t
  | .colonWsPlus, _, t => colonWsRuns t

/-- Match a whole item sequence starting exactly at the current position. -/
def matchItems : List RItem → Option Char → List Char → Bool
  | [], _, _ => true
  | p :: ps, prev, t => (stepItem p prev t).any fun pr => matchItems ps pr.1 pr.2

/-- Try the pattern at this position and at every later position. -/
def testFrom (ps : List RItem) : Option Char → List Char → Bool
  | prev, [] => matchItems ps prev []
  | prev, d :: t => matchItems ps prev (d :: t) || testFrom ps (some d) t

/-- JS `RegExp.prototype.test`: does the pattern match anywhere in the text? -/
def testPattern (ps : List RItem) (text : List Char) : Bool :=
  testFrom ps none text

/-- Literal pattern items for a fixed (already lowercase) keyword. -/
def litsL (s : String) : List RItem :=
  s.toList.map RItem.lit

/-- Pattern items produced by interpolating the user name into the
pattern text, as the source does without escaping: a `.` in the name is
therefore pattern syntax (any character); all other characters the
source is exercised with are literals.  (A name containing `(` would
make `new RegExp` throw in JS; such names are outside this model.) -/
def nameItems (name : List Char) : List RItem :=
  name.map fun c => if c == '.' then RItem.anyc else RItem.lit c

/-! ### Keyword configuration (module-level constants of the source) -/

/-- `CRITICAL_DEBIT_KEYWORDS` from the source. -/
def CRITICAL_DEBIT_KEYWORDS : List String := ["debit", "dr"]

/-- `DEBIT_KEYWORDS` from the source. -/
def DEBIT_KEYWORDS : List String :=
  ["debited", "withdrawal", "withdraw", "transferred", "transfer from your",
   "payment to", "paid to", "sent to", "deducted", "charged", "purchase",
   "atm withdrawal", "pos purchase", "bill payment"]

/-- `CREDIT_KEYWORDS` from the source. -/
def CREDIT_KEYWORDS : List String :=
  ["credited", "credit", "received", "deposit", "transfer from",
   "payment from", "salary", "refund", "reversal"]

/-- `BANK_NAMES` from the source. -/
def BANK_NAMES : List String :=
  ["GTBank", "Access", "Zenith", "First Bank", "UBA", "Stanbic", "Kuda",
   "Fidelity", "Wema", "Union"]

/-! ### AlertClassifier -/

/-- `isUserReceiver` from the source: six receiver patterns built around
the trimmed lowercased user name; the empty name (JS falsy) disables the
check.  The `i` flag is modelled by matching against the lowercased text. -/
def isUserReceiver (userName : String) (text : List Char) : Bool :=
  if userName == "" then false
  else
    let name := lowerL (trimL (strL userName))
    let lt := lowerL text
    let pats : List (List RItem) :=
      [[RItem.wb] ++ litsL "to" ++ [RItem.wsPlus] ++ nameItems name ++ [RItem.wb],
       [RItem.wb] ++ litsL "credited" ++ [RItem.wsPlus] ++ litsL "to" ++ [RItem.wsPlus]
         ++ nameItems name ++ [RItem.wb],
       [RItem.wb] ++ litsL "beneficiary" ++ [RItem.colonWsPlus] ++ nameItems name ++ [RItem.wb],
       [RItem.wb] ++ litsL "receiver" ++ [RItem.colonWsPlus] ++ nameItems name ++ [RItem.wb],
       [RItem.wb] ++ litsL "recipient" ++ [RItem.colonWsPlus] ++ nameItems name ++ [RItem.wb],
       [RItem.wb] ++ litsL "payment" ++ [RItem.wsPlus] ++ litsL "to" ++ [RItem.wsPlus]
         ++ nameItems name ++ [RItem.wb]]
    pats.any fun p => testPattern p lt

/-- `isUserSender` from the source: four sender patterns. -/
def isUserSender (userName : String) (text : List Char) : Bool :=
  if userName == "" then false
  else
    let name := lowerL (trimL (strL userName))
    let lt := lowerL text
    let pats : List (List RItem) :=
      [[RItem.wb] ++ litsL "from" ++ [RItem.wsPlus] ++ nameItems name ++ [RItem.wb],
       [RItem.wb] ++ litsL "sender" ++ [RItem.colonWsPlus] ++ nameItems name ++ [RItem.wb],
       [RItem.wb] ++ litsL "by" ++ [RItem.wsPlus] ++ nameItems name ++ [RItem.wb],
       [RItem.wb] ++ litsL "transfer" ++ [RItem.wsPlus] ++ litsL "from" ++ [RItem.wsPlus]
         ++ nameItems name ++ [RItem.wb]]
    pats.any fun p => testPattern p lt

/-- First half of `isDebitTransaction`: the whole-word test
for each critical keyword (`new RegExp("\\b" + kw + "\\b", "i")`). -/
def criticalMatch (text : List Char) : Bool :=
  CRITICAL_DEBIT_KEYWORDS.any fun kw =>
    testPattern ([RItem.wb] ++ litsL kw ++ [RItem.wb]) (lowerL text)

/-- Second half of `isDebitTransaction`: substring search of each broad
debit keyword in the lowercased text. -/
def debitKeywordMatch (text : List Char) : Bool :=
  DEBIT_KEYWORDS.any fun kw => containsL (strL kw) (lowerL text)

/-- `isDebitTransaction` from the source: critical whole-word terms
first, then the broader substring keywords. -/
def isDebitTransaction (text : List Char) : Bool :=
  criticalMatch text || debitKeywordMatch text

/-- `isCreditTransaction` from the source. -/
def isCreditTransaction (text : List Char) : Bool :=
  CREDIT_KEYWORDS.any fun kw => containsL (strL kw) (lowerL text)

/-- The classification decisions distinguished by the spec. -/
inductive ClassificationDecision where
  | accepted
  | rejectedDebit
  | rejectedAmbiguous
deriving DecidableEq

/-- The classification decision taken by `handleAddTransaction` in the
source: empty text, then receiver override, then sender-or-debit
rejection, then the credit-keyword requirement. -/
def classify (userName : String) (text : List Char) : ClassificationDecision :=
  if (trimL text).isEmpty then .rejectedAmbiguous
  else if isUserReceiver userName text then .accepted
  else if isUserSender userName text || isDebitTransaction text then .rejectedDebit
  else if !isCreditTransaction text then .rejectedAmbiguous
  else .accepted

/-- The seven-rule decision order exactly as the specification words it:
empty, receiver, critical debit word, sender, debit substring, missing
credit keyword, accept. -/
def classifySpecOrder (userName : String) (text : List Char) : ClassificationDecision :=
  if (trimL text).isEmpty then .rejectedAmbiguous
  else if isUserReceiver userName text then .accepted
  else if criticalMatch text then .rejectedDebit
  else if isUserSender userName text then .rejectedDebit
  else if debitKeywordMatch text then .rejectedDebit
  else if !isCreditTransaction text then .rejectedAmbiguous
  else .accepted

/-! ### TaxEngine

Money is modelled by exact rationals; the `Infinity` upper bound of the
last configured bracket is `none`. -/

/-- One progressive tax bracket: `limit` is the upper bound (`none` for
`Infinity`), `rate` the marginal rate. -/
structure TaxBracket where
  limit : Option ℚ
  rate : ℚ
deriving DecidableEq

/-- `TAX_BRACKETS` from the source. -/
def TAX_BRACKETS : List TaxBracket :=
  [⟨some 800000, 0⟩, ⟨some 3000000, 0.15⟩, ⟨some 12000000, 0.18⟩,
   ⟨some 25000000, 0.21⟩, ⟨some 50000000, 0.23⟩, ⟨none, 0.25⟩]

/-- The loop of `calculateTax`: walk the brackets keeping the previous
limit and the accumulated tax; `income <= Infinity` is always true, so
an unbounded bracket ends the walk. -/
def calculateTaxGo : List TaxBracket → ℚ → ℚ → ℚ → ℚ
  | [], _, tax, _ => tax
  | ⟨none, rate⟩ :: _, prev, tax, income => tax + (income - prev) * rate
  | ⟨some l, rate⟩ :: bs, prev, tax, income =>
    if income ≤ l then tax + (income - prev) * rate
    else calculateTaxGo bs l (tax + (l - prev) * rate) income

/-- `calculateTax` from the source. -/
def calculateTax (income : ℚ) : ℚ :=
  calculateTaxGo TAX_BRACKETS 0 0 income

/-- One row of the per-bracket breakdown (the source spreads the bracket
into the row, so limit and rate are carried along). -/
structure BEntry where
  limit : Option ℚ
  rate : ℚ
  taxable : ℚ
  tax : ℚ
deriving DecidableEq

/-- `bracketCap` of the breakdown loop.  `previousLimit` is an extended
rational (`none` after an unbounded bracket): in JS, `limit - Infinity`
is `-Infinity` and the `min`/`max` pair collapses it to `0`. -/
def capOf (limit : Option ℚ) (prev : Option ℚ) (remaining : ℚ) : ℚ :=
  match limit, prev with
  | none, _ => remaining
  | some l, some p => max (min (l - p) remaining) 0
  | some _, none => 0

/-- `taxable` of the breakdown loop. -/
def taxableOf (limit prev : Option ℚ) (remaining : ℚ) : ℚ :=
  max (min remaining (capOf limit prev remaining)) 0

/-- The body of the `TAX_BRACKETS.map` in `taxBreakdown`, written as a
recursion carrying the mutable `remaining` and `previousLimit`. -/
def taxBreakdownGo : List TaxBracket → Option ℚ → ℚ → List BEntry
  | [], _, _ => []
  | ⟨lim, rate⟩ :: bs, prev, remaining =>
    { limit := lim, rate := rate,
      taxable := taxableOf lim prev remaining,
      tax := taxableOf lim prev remaining * rate }
      :: taxBreakdownGo bs lim (remaining - taxableOf lim prev remaining)

/-- `taxBreakdown` from the source (a pure function of the total income). -/
def taxBreakdown (totalIncome : ℚ) : List BEntry :=
  taxBreakdownGo TAX_BRACKETS (some 0) totalIncome

/-- Sum of the `taxable` column of a breakdown. -/
def sumTaxable : List BEntry → ℚ
  | [] => 0
  | e :: es => e.taxable + sumTaxable es

/-- Sum of the `tax` column of a breakdown. -/
def sumTax : List BEntry → ℚ
  | [] => 0
  | e :: es => e.tax + sumTax es

/-- Does the list contain an unbounded bracket? -/
def hasUnbounded : List TaxBracket → Bool
  | [] => false
  | ⟨none, _⟩ :: _ => true
  | ⟨some _, _⟩ :: bs => hasUnbounded bs

/-- Brackets are ascending from the given lower limit (checked up to the
first unbounded bracket, past which neither loop looks). -/
def sortedFromB : ℚ → List TaxBracket → Bool
  | _, [] => true
  | _, ⟨none, _⟩ :: _ => true
  | p, ⟨some l, _⟩ :: bs => decide (p ≤ l) && sortedFromB l bs

/-- Every rate lies in `[0, 1]`. -/
def ratesOKB : List TaxBracket → Bool
  | [] => true
  | ⟨_, rate⟩ :: bs => decide (0 ≤ rate) && decide (rate ≤ 1) && ratesOKB bs

/-! ### FieldExtractor -/

/-- Characters admitted by the `[0-9,.]` class of the amount patterns. -/
def isAmtChar (c : Char) : Bool :=
  c.isDigit || c == ',' || c == '.'

/-- `parseFloat` (JS) on a string of digits and dots, with the
source's `|| 0` folded in: `NaN` (no leading number) becomes `0`;
parsing stops at the second dot. -/
def digitsVal (cs : List Char) : ℕ :=
  cs.foldl (fun a c => a * 10 + (c.toNat - '0'.toNat)) 0

/-- Numeric value of a captured amount string: integer digits, then an
optional dot and fractional digits; anything further (a second dot) is
ignored, and a string with no leading number at all gives `0`. -/
def parseFloatQ (cs : List Char) : ℚ :=
  let ip := cs.takeWhile Char.isDigit
  let r := cs.dropWhile Char.isDigit
  let fp := (r.drop 1).takeWhile Char.isDigit
  if r.head? = some '.' then
    if ip.isEmpty && fp.isEmpty then 0
    else (digitsVal ip : ℚ) + (digitsVal fp : ℚ) / (10 : ℚ) ^ fp.length
  else if ip.isEmpty then 0
  else (digitsVal ip : ℚ)

/-- Strip the thousands separators (`replace(/,/g, "")`). -/
def removeCommas (cs : List Char) : List Char :=
  cs.filter fun c => !(c == ',')

/-- Generic leftmost-match scan: apply the position matcher at every
start position, leftmost first (JS regex search order). -/
def scanPat (f : List Char → Option (List Char)) : List Char → Option (List Char)
  | [] => f []
  | c :: t => (f (c :: t)).orElse fun _ => scanPat f t

/-- One alternative of the first amount pattern at a position: the
currency marker, then `\s*` (whitespace is not an amount character, so
greedy matching just skips the whole run), then a nonempty `[0-9,.]+`
capture. -/
def altCapAt (alt : List Char) (t : List Char) : Option (List Char) :=
  if startsWithL alt t then
    let cap := ((t.drop alt.length).dropWhile Char.isWhitespace).takeWhile isAmtChar
    if cap.isEmpty then none else some cap
  else none

/-- Amount pattern (a): `(?:NGN|₦|N)\s*([0-9,.]+)` with the JS
alternation order, at one position of the lowercased text. -/
def pat1At (t : List Char) : Option (List Char) :=
  (altCapAt (strL "ngn") t).orElse fun _ =>
    (altCapAt (strL "₦") t).orElse fun _ => altCapAt (strL "n") t

/-- `\s+` followed by a nonempty `[0-9,.]+` capture (the `\s+` must
consume at least one character; since whitespace is not an amount
character the greedy run is forced). -/
def gapCapAfter (r : List Char) : Option (List Char) :=
  let r1 := r.dropWhile Char.isWhitespace
  if r1.length == r.length then none
  else
    let cap := r1.takeWhile isAmtChar
    if cap.isEmpty then none else some cap

/-- Amount pattern (b): `credited\s+with\s+([0-9,.]+)` at one position. -/
def pat2At (t : List Char) : Option (List Char) :=
  if startsWithL (strL "credited") t then
    let r := t.drop 8
    let r1 := r.dropWhile Char.isWhitespace
    if r1.length == r.length then none
    else if startsWithL (strL "with") r1 then gapCapAfter (r1.drop 4)
    else none
  else none

/-- Amount pattern (c): `received\s+([0-9,.]+)` at one position. -/
def pat3At (t : List Char) : Option (List Char) :=
  if startsWithL (strL "received") t then gapCapAfter (t.drop 8)
  else none

/-- `extractAmount` from the source: the three patterns in order, first
match wins, commas stripped, decimal parsed, default `0`. -/
def extractAmount (text : List Char) : ℚ :=
  let lt := lowerL text
  match scanPat pat1At lt with
  | some cap => parseFloatQ (removeCommas cap)
  | none =>
    match scanPat pat2At lt with
    | some cap => parseFloatQ (removeCommas cap)
    | none =>
      match scanPat pat3At lt with
      | some cap => parseFloatQ (removeCommas cap)
      | none => 0

/-- `YYYY-MM-DD` at the start of the suffix. -/
def dateShape1 : List Char → Option (List Char)
  | a :: b :: c :: d :: e :: f :: g :: h :: i :: j :: _ =>
    if a.isDigit && b.isDigit && c.isDigit && d.isDigit && (e == '-')
        && f.isDigit && g.isDigit && (h == '-') && i.isDigit && j.isDigit
    then some [a, b, c, d, e, f, g, h, i, j] else none
  | _ => none

/-- `DD/MM/YYYY` at the start of the suffix. -/
def dateShape2 : List Char → Option (List Char)
  | a :: b :: c :: d :: e :: f :: g :: h :: i :: j :: _ =>
    if a.isDigit && b.isDigit && (c == '/') && d.isDigit && e.isDigit
        && (f == '/') && g.isDigit && h.isDigit && i.isDigit && j.isDigit
    then some [a, b, c, d, e, f, g, h, i, j] else none
  | _ => none

/-- `DD-MM-YYYY` at the start of the suffix. -/
def dateShape3 : List Char → Option (List Char)
  | a :: b :: c :: d :: e :: f :: g :: h :: i :: j :: _ =>
    if a.isDigit && b.isDigit && (c == '-') && d.isDigit && e.isDigit
        && (f == '-') && g.isDigit && h.isDigit && i.isDigit && j.isDigit
    then some [a, b, c, d, e, f, g, h, i, j] else none
  | _ => none

/-- The date alternation at one position, in the order the source
regex lists the alternatives. -/
def dateAltAt (t : List Char) : Option (List Char) :=
  (dateShape1 t).orElse fun _ => (dateShape2 t).orElse fun _ => dateShape3 t

/-- `extractDate` from the source.  The `today` argument models the
value of the `new Date().toISOString().split("T")[0]` expression that
the source evaluates inline: the source reads the global clock there
rather than receiving the date as a parameter. -/
def extractDate (text today : List Char) : List Char :=
  match scanPat dateAltAt text with
  | some m => m.map fun c => if c == '/' then '-' else c
  | none => today

/-- A colon-or-whitespace character (`[:\s]`). -/
def isLabelGap (c : Char) : Bool :=
  c == ':' || c.isWhitespace

/-- A character admitted by `[^\.\n]`. -/
def notStop (c : Char) : Bool :=
  !(c == '.' || c == '\n')

/-- Backtracking over the greedy `[:\s]+` of the description pattern:
try the longest gap first, then shorter ones, until the `[^\.\n]+`
capture is nonempty. -/
def gapBacktrack : ℕ → List Char → Option (List Char)
  | 0, _ => none
  | k + 1, r =>
    let cap := (r.drop (k + 1)).takeWhile notStop
    if cap.isEmpty then gapBacktrack k r else some cap

/-- Case-insensitive prefix test (`pat` is already lowercase); the
original-case text is kept so the capture preserves case. -/
def startsWithCI : List Char → List Char → Bool
  | [], _ => true
  | _ :: _, [] => false
  | a :: as, b :: bs => (b.toLower == a) && startsWithCI as bs

/-- One label alternative of the description pattern at a position:
the label word, `[:\s]+`, then a `[^\.\n]+` capture. -/
def labelCapAt (label : List Char) (t : List Char) : Option (List Char) :=
  if startsWithCI label t then
    let r := t.drop label.length
    gapBacktrack (r.takeWhile isLabelGap).length r
  else none

/-- The description pattern
`(?:from|narration|desc|description)[:\s]+([^\.\n]+)` at one position,
alternatives in source order. -/
def descAt (t : List Char) : Option (List Char) :=
  (labelCapAt (strL "from") t).orElse fun _ =>
    (labelCapAt (strL "narration") t).orElse fun _ =>
      (labelCapAt (strL "desc") t).orElse fun _ => labelCapAt (strL "description") t

/-- `extractDescription` from the source. -/
def extractDescription (text : List Char) : List Char :=
  match scanPat descAt text with
  | some cap => trimL cap
  | none => trimL (text.take 60) ++ (if 60 < text.length then strL "..." else [])

/-- `extractBank` from the source: first known bank name contained
case-insensitively in the text, else `"Unknown"`. -/
def extractBank (text : List Char) : String :=
  match BANK_NAMES.find? (fun b => containsL (lowerL (strL b)) (lowerL text)) with
  | some b => b
  | none => "Unknown"

/-! ### TransactionAssembler -/

/-- A ledger transaction.  `id` models `crypto.randomUUID()` (supplied
by the caller), `date` may fall back to the ambient clock value. -/
structure Transaction where
  id : String
  date : List Char
  amount : ℚ
  description : List Char
  bank : String
  rawSMS : List Char
deriving DecidableEq

/-- `parseSMS` from the source. -/
def parseSMS (newId : String) (today : List Char) (text : List Char) : Transaction :=
  { id := newId
    date := extractDate text today
    amount := extractAmount text
    description := extractDescription text
    bank := extractBank text
    rawSMS := text }

/-- Outcome of the add-transaction flow; every rejection carries the
reason string the source passes to `flashError`. -/
inductive AddResult where
  | accepted (t : Transaction)
  | emptyInput (reason : String)
  | debitRejected (reason : String)
  | ambiguousAlert (reason : String)
  | extractionFailed (reason : String)
deriving DecidableEq

/-- `acceptCredit` from the source: parse, refuse a non-positive
amount, otherwise prepend to the ledger. -/
def acceptCredit (newId : String) (today : List Char) (smsText : List Char)
    (transactions : List Transaction) : AddResult × List Transaction :=
  let newTransaction := parseSMS newId today smsText
  if newTransaction.amount ≤ 0 then
    (.extractionFailed "Could not extract a valid amount from the SMS.", transactions)
  else
    (.accepted newTransaction, newTransaction :: transactions)

/-- `handleAddTransaction` from the source: the validation rules in
source order, returning the outcome and the resulting ledger. -/
def handleAddTransaction (userName : String) (newId : String) (today : List Char)
    (smsText : List Char) (transactions : List Transaction) : AddResult × List Transaction :=
  if (trimL smsText).isEmpty then
    (.emptyInput "Please enter SMS text or use OCR.", transactions)
  else if isUserReceiver userName smsText then
    acceptCredit newId today smsText transactions
  else if isUserSender userName smsText || isDebitTransaction smsText then
    (.debitRejected "Debit detected! Only credit income alerts are accepted.", transactions)
  else if !isCreditTransaction smsText then
    (.ambiguousAlert "Unable to confirm this is a credit alert.", transactions)
  else acceptCredit newId today smsText transactions

/-- Is the outcome one of the four rejection variants? -/
def isRejection : AddResult → Bool
  | .accepted _ => false
  | _ => true

/-- The reason string carried by an outcome (empty for acceptance). -/
def reasonOf : AddResult → String
  | .accepted _ => ""
  | .emptyInput r => r
  | .debitRejected r => r
  | .ambiguousAlert r => r
  | .extractionFailed r => r

/-- Every ledger entry has a positive amount (Bool form, so concrete
instances evaluate). -/
def allPositive (l : List Transaction) : Bool :=
  l.all fun t => decide (0 < t.amount)

/-! ## Lemmas about the tax engine -/

theorem taxableOf_nonneg (lim prev : Option ℚ) (r : ℚ) : 0 ≤ taxableOf lim prev r :=
  le_max_right _ _

theorem taxableOf_le_self (lim prev : Option ℚ) {r : ℚ} (h : 0 ≤ r) :
    taxableOf lim prev r ≤ r :=
  max_le (min_le_left _ _) h

theorem taxableOf_zero (lim prev : Option ℚ) : taxableOf lim prev 0 = 0 := by
  have h : min (0 : ℚ) (capOf lim prev 0) ≤ 0 := min_le_left _ _
  rw [taxableOf, max_eq_right h]

theorem taxableOf_none (prev : Option ℚ) {r : ℚ} (h : 0 ≤ r) :
    taxableOf none prev r = r := by
  simp [taxableOf, capOf, min_self, max_eq_left h]

theorem taxableOf_under {l p r : ℚ} (h0 : 0 ≤ r) (h : r ≤ l - p) :
    taxableOf (some l) (some p) r = r := by
  rw [taxableOf, capOf]
  rw [min_eq_right h, max_eq_left h0, min_self, max_eq_left h0]

theorem taxableOf_over {l p r : ℚ} (h0 : 0 ≤ l - p) (h : l - p ≤ r) :
    taxableOf (some l) (some p) r = l - p := by
  rw [taxableOf, capOf]
  rw [min_eq_left h, max_eq_left h0, min_eq_right h, max_eq_left h0]

/-- With nothing left to allocate, every later row is all zeroes. -/
theorem breakdownGo_zero (bs : List TaxBracket) :
    ∀ prev : Option ℚ,
      sumTaxable (taxBreakdownGo bs prev 0) = 0 ∧ sumTax (taxBreakdownGo bs prev 0) = 0 := by
  induction bs with
  | nil => intro prev; simp [taxBreakdownGo, sumTaxable, sumTax]
  | cons b bs ih =>
    intro prev
    obtain ⟨lim, rate⟩ := b
    simp [taxBreakdownGo, sumTaxable, sumTax, taxableOf_zero, ih lim]

/-- The taxable column exhausts the remaining income, provided the
bracket list contains an unbounded bracket. -/
theorem breakdownGo_sumTaxable (bs : List TaxBracket) :
    ∀ (prev : Option ℚ) (r : ℚ), 0 ≤ r → hasUnbounded bs = true →
      sumTaxable (taxBreakdownGo bs prev r) = r := by
  induction bs with
  | nil => intro prev r _ h; simp [hasUnbounded] at h
  | cons b bs ih =>
    intro prev r hr hub
    obtain ⟨lim, rate⟩ := b
    cases lim with
    | none =>
      simp only [taxBreakdownGo, sumTaxable, taxableOf_none prev hr, sub_self]
      rw [(breakdownGo_zero bs none).1, add_zero]
    | some l =>
      have h1 : taxableOf (some l) prev r ≤ r := taxableOf_le_self _ _ hr
      have h0 : 0 ≤ taxableOf (some l) prev r := taxableOf_nonneg _ _ _
      have hub2 : hasUnbounded bs = true := hub
      simp only [taxBreakdownGo, sumTaxable]
      rw [ih (some l) (r - taxableOf (some l) prev r) (by linarith) hub2]
      ring

/-- The breakdown lists exactly the configured brackets, in order. -/
theorem breakdownGo_brackets (bs : List TaxBracket) :
    ∀ (prev : Option ℚ) (r : ℚ),
      (taxBreakdownGo bs prev r).map (fun e => (e.limit, e.rate)) =
        bs.map fun b => (b.limit, b.rate) := by
  induction bs with
  | nil => intro prev r; simp [taxBreakdownGo]
  | cons b bs ih =>
    intro prev r
    obtain ⟨lim, rate⟩ := b
    simp [taxBreakdownGo, ih]

/-- The accumulator of the `calculateTax` loop only shifts the result. -/
theorem calculateTaxGo_shift (bs : List TaxBracket) :
    ∀ p tax income : ℚ,
      calculateTaxGo bs p tax income = tax + calculateTaxGo bs p 0 income := by
  induction bs with
  | nil => intro p tax income; simp [calculateTaxGo]
  | cons b bs ih =>
    intro p tax income
    obtain ⟨lim, rate⟩ := b
    cases lim with
    | none => simp only [calculateTaxGo]; ring
    | some l =>
      by_cases h : income ≤ l
      · simp only [calculateTaxGo, if_pos h]; ring
      · simp only [calculateTaxGo, if_neg h]
        rw [ih l (tax + (l - p) * rate) income, ih l (0 + (l - p) * rate) income]
        ring

/-- The computed tax is nonnegative for sorted brackets and rates in `[0,1]`. -/
theorem calculateTaxGo_nonneg (bs : List TaxBracket) :
    ∀ p income : ℚ, sortedFromB p bs = true → ratesOKB bs = true → p ≤ income →
      0 ≤ calculateTaxGo bs p 0 income := by
  induction bs with
  | nil => intro p income _ _ _; simp [calculateTaxGo]
  | cons b bs ih =>
    intro p income hs hr hp
    obtain ⟨lim, rate⟩ := b
    obtain ⟨⟨hr0, hr1⟩, hrs⟩ : ((0 : ℚ) ≤ rate ∧ rate ≤ 1) ∧ ratesOKB bs = true := by
      simpa [ratesOKB, Bool.and_eq_true, decide_eq_true_eq, and_assoc] using hr
    cases lim with
    | none =>
      simp only [calculateTaxGo, zero_add]
      exact mul_nonneg (by linarith) hr0
    | some l =>
      obtain ⟨hpl, hsrt⟩ : p ≤ l ∧ sortedFromB l bs = true := by
        simpa [sortedFromB, Bool.and_eq_true, decide_eq_true_eq] using hs
      by_cases h : income ≤ l
      · simp only [calculateTaxGo, if_pos h, zero_add]
        exact mul_nonneg (by linarith) hr0
      · simp only [calculateTaxGo, if_neg h]
        rw [calculateTaxGo_shift bs l (0 + (l - p) * rate) income]
        have h2 := ih l income hsrt hrs (by linarith)
        have h3 : (0 : ℚ) ≤ (l - p) * rate := mul_nonneg (by linarith) hr0
        linarith

/-- The computed tax never exceeds the income above the lower limit. -/
theorem calculateTaxGo_le (bs : List TaxBracket) :
    ∀ p income : ℚ, sortedFromB p bs = true → ratesOKB bs = true → p ≤ income →
      calculateTaxGo bs p 0 income ≤ income - p := by
  induction bs with
  | nil => intro p income _ _ hp; simp only [calculateTaxGo]; linarith
  | cons b bs ih =>
    intro p income hs hr hp
    obtain ⟨lim, rate⟩ := b
    obtain ⟨⟨hr0, hr1⟩, hrs⟩ : ((0 : ℚ) ≤ rate ∧ rate ≤ 1) ∧ ratesOKB bs = true := by
      simpa [ratesOKB, Bool.and_eq_true, decide_eq_true_eq, and_assoc] using hr
    cases lim with
    | none =>
      simp only [calculateTaxGo, zero_add]
      exact mul_le_of_le_one_right (by linarith) hr1
    | some l =>
      obtain ⟨hpl, hsrt⟩ : p ≤ l ∧ sortedFromB l bs = true := by
        simpa [sortedFromB, Bool.and_eq_true, decide_eq_true_eq] using hs
      by_cases h : income ≤ l
      · simp only [calculateTaxGo, if_pos h, zero_add]
        exact mul_le_of_le_one_right (by linarith) hr1
      · simp only [calculateTaxGo, if_neg h]
        rw [calculateTaxGo_shift bs l (0 + (l - p) * rate) income]
        have h2 := ih l income hsrt hrs (by linarith)
        have h3 : (l - p) * rate ≤ l - p := mul_le_of_le_one_right (by linarith) hr1
        linarith

/-- The computed tax is monotone in the income. -/
theorem calculateTaxGo_mono (bs : List TaxBracket) :
    ∀ p a c : ℚ, sortedFromB p bs = true → ratesOKB bs = true → p ≤ a → a ≤ c →
      calculateTaxGo bs p 0 a ≤ calculateTaxGo bs p 0 c := by
  induction bs with
  | nil => intro p a c _ _ _ _; simp [calculateTaxGo]
  | cons b bs ih =>
    intro p a c hs hr hpa hac
    obtain ⟨lim, rate⟩ := b
    obtain ⟨⟨hr0, hr1⟩, hrs⟩ : ((0 : ℚ) ≤ rate ∧ rate ≤ 1) ∧ ratesOKB bs = true := by
      simpa [ratesOKB, Bool.and_eq_true, decide_eq_true_eq, and_assoc] using hr
    cases lim with
    | none =>
      simp only [calculateTaxGo, zero_add]
      exact mul_le_mul_of_nonneg_right (by linarith) hr0
    | some l =>
      obtain ⟨hpl, hsrt⟩ : p ≤ l ∧ sortedFromB l bs = true := by
        simpa [sortedFromB, Bool.and_eq_true, decide_eq_true_eq] using hs
      by_cases hc : c ≤ l
      · have ha : a ≤ l := le_trans hac hc
        simp only [calculateTaxGo, if_pos hc, if_pos ha, zero_add]
        exact mul_le_mul_of_nonneg_right (by linarith) hr0
      · by_cases ha : a ≤ l
        · simp only [calculateTaxGo, if_pos ha, if_neg hc, zero_add]
          rw [calculateTaxGo_shift bs l ((l - p) * rate) c]
          have hn := calculateTaxGo_nonneg bs l c hsrt hrs (by linarith)
          have hm : (a - p) * rate ≤ (l - p) * rate :=
            mul_le_mul_of_nonneg_right (by linarith) hr0
          linarith
        · simp only [calculateTaxGo, if_neg ha, if_neg hc]
          rw [calculateTaxGo_shift bs l (0 + (l - p) * rate) a,
            calculateTaxGo_shift bs l (0 + (l - p) * rate) c]
          have := ih l a c hsrt hrs (by linarith) hac
          linarith

/-- The scalar loop and the breakdown rows compute the same tax. -/
theorem calcGo_eq_breakdownGo (bs : List TaxBracket) :
    ∀ p income : ℚ, sortedFromB p bs = true → p ≤ income →
      calculateTaxGo bs p 0 income = sumTax (taxBreakdownGo bs (some p) (income - p)) := by
  induction bs with
  | nil => intro p income _ _; simp [calculateTaxGo, taxBreakdownGo, sumTax]
  | cons b bs ih =>
    intro p income hs hp
    obtain ⟨lim, rate⟩ := b
    cases lim with
    | none =>
      have h0 : (0 : ℚ) ≤ income - p := by linarith
      simp only [calculateTaxGo, taxBreakdownGo, sumTax, taxableOf_none (some p) h0,
        sub_self, zero_add]
      rw [(breakdownGo_zero bs none).2, add_zero]
    | some l =>
      obtain ⟨hpl, hsrt⟩ : p ≤ l ∧ sortedFromB l bs = true := by
        simpa [sortedFromB, Bool.and_eq_true, decide_eq_true_eq] using hs
      by_cases h : income ≤ l
      · have h0 : (0 : ℚ) ≤ income - p := by linarith
        have hle : income - p ≤ l - p := by linarith
        simp only [calculateTaxGo, if_pos h, taxBreakdownGo, sumTax, zero_add,
          taxableOf_under h0 hle, sub_self]
        rw [(breakdownGo_zero bs (some l)).2, add_zero]
      · have h1 : (0 : ℚ) ≤ l - p := by linarith
        have h2 : l - p ≤ income - p := by linarith
        simp only [calculateTaxGo, if_neg h, taxBreakdownGo, sumTax,
          taxableOf_over h1 h2]
        rw [calculateTaxGo_shift bs l (0 + (l - p) * rate) income]
        have heq : income - p - (l - p) = income - l := by ring
        rw [heq, ih l income hsrt (by linarith)]
        ring

/-! ## Claim theorems: tax engine -/

/-- Claim C3: for every total income at least 0, the per-bracket
breakdown lists every configured bracket (zero rows for unreached
brackets), and its taxable amounts sum exactly to the total income. -/
theorem claim_C3_breakdown_covers_income (income : ℚ) (h : 0 ≤ income) :
    sumTaxable (taxBreakdown income) = income ∧
      (taxBreakdown income).map (fun e => (e.limit, e.rate)) =
        TAX_BRACKETS.map (fun b => (b.limit, b.rate)) :=
  ⟨breakdownGo_sumTaxable TAX_BRACKETS (some 0) income h (by decide),
    breakdownGo_brackets TAX_BRACKETS (some 0) income⟩

theorem claim_C3_breakdown_covers_income_witness :
    0 ≤ (5000000 : ℚ) ∧
      (sumTaxable (taxBreakdown 5000000) = 5000000 ∧
        (taxBreakdown 5000000).map (fun e => (e.limit, e.rate)) =
          TAX_BRACKETS.map (fun b => (b.limit, b.rate))) :=
  ⟨by decide, claim_C3_breakdown_covers_income 5000000 (by decide)⟩

/-- Claim C4: the tax computation is monotone over nonnegative incomes,
and the tax never exceeds the income. -/
theorem claim_C4_tax_monotone_bounded :
    (∀ a c : ℚ, 0 ≤ a → a ≤ c → calculateTax a ≤ calculateTax c) ∧
      ∀ income : ℚ, 0 ≤ income → calculateTax income ≤ income := by
  have hs : sortedFromB 0 TAX_BRACKETS = true := by decide
  have hr : ratesOKB TAX_BRACKETS = true := by
    simp only [ratesOKB, TAX_BRACKETS, Bool.and_eq_true, decide_eq_true_eq]
    norm_num
  constructor
  · intro a c ha hac
    exact calculateTaxGo_mono TAX_BRACKETS 0 a c hs hr ha hac
  · intro income h
    have := calculateTaxGo_le TAX_BRACKETS 0 income hs hr h
    simpa [calculateTax] using this

theorem claim_C4_tax_monotone_bounded_witness :
    (0 : ℚ) ≤ 1000000 ∧ (1000000 : ℚ) ≤ 2000000 ∧
      calculateTax 1000000 ≤ calculateTax 2000000 ∧ calculateTax 1000000 ≤ 1000000 :=
  ⟨by decide, by decide,
    claim_C4_tax_monotone_bounded.1 1000000 2000000 (by decide) (by decide),
    claim_C4_tax_monotone_bounded.2 1000000 (by decide)⟩

/-- Claim C10: the scalar tax computation and the per-bracket breakdown
agree: the total equals the sum of the breakdown tax column. -/
theorem claim_C10_calc_eq_breakdown (income : ℚ) (h : 0 ≤ income) :
    calculateTax income = sumTax (taxBreakdown income) := by
  have := calcGo_eq_breakdownGo TAX_BRACKETS 0 income (by decide) h
  simpa [calculateTax, taxBreakdown] using this

theorem claim_C10_calc_eq_breakdown_witness :
    0 ≤ (5000000 : ℚ) ∧ calculateTax 5000000 = sumTax (taxBreakdown 5000000) :=
  ⟨by decide, claim_C10_calc_eq_breakdown 5000000 (by decide)⟩

/-! ## Claim theorems: classifier -/

/-- Claim C1: for every input text and optional profile, classification
follows the fixed seven-rule decision order with the first matching rule
winning: the source's decision path agrees with the spec's ordered rule
list on every input (the source folds rules 3-5 into one disjunction,
all of whose limbs reject as debit). -/
theorem claim_C1_decision_order (userName : String) (text : List Char) :
    classify userName text = classifySpecOrder userName text := by
  unfold classify classifySpecOrder isDebitTransaction
  by_cases h1 : (trimL text).isEmpty = true <;>
    by_cases h2 : isUserReceiver userName text = true <;>
      by_cases h3 : isUserSender userName text = true <;>
        by_cases h4 : criticalMatch text = true <;>
          by_cases h5 : debitKeywordMatch text = true <;>
            by_cases h6 : isCreditTransaction text = true <;>
              simp [h1, h2, h3, h4, h5, h6]

/-- Claim C2: for nonempty text, a receiver-pattern match for the
profile name yields acceptance regardless of any debit terms present
(rule 2 precedes rules 3 and 5). -/
theorem claim_C2_receiver_override (userName : String) (text : List Char)
    (hne : (trimL text).isEmpty = false)
    (hrecv : isUserReceiver userName text = true) :
    classify userName text = ClassificationDecision.accepted := by
  simp [classify, hne, hrecv]

theorem claim_C2_receiver_override_witness :
    classify "John Doe" (strL "NGN10,000 credited to John Doe") =
        ClassificationDecision.accepted ∧
      classify "John Doe" (strL "NGN10,000 credited to John Doe debited from sender") =
        ClassificationDecision.accepted :=
  ⟨claim_C2_receiver_override "John Doe"
      (strL "NGN10,000 credited to John Doe") (by decide) (by decide),
    claim_C2_receiver_override "John Doe"
      (strL "NGN10,000 credited to John Doe debited from sender") (by decide) (by decide)⟩

/-- Claim C5 is refuted by the source: the profile name is interpolated
into the receiver and sender patterns without escaping, so a dot in the
name acts as pattern syntax.  With display name "a.c" the receiver check
matches the text "to axc" although the literal name never occurs in it. -/
theorem claim_C5_name_unescaped :
    isUserReceiver "a.c" (strL "to axc") = true ∧
      containsL (lowerL (trimL (strL "a.c"))) (lowerL (strL "to axc")) = false := by
  decide

/-! ## Claim theorems: field extraction -/

/-- Claim C6: amount extraction tries patterns (a), (b), (c) in order,
takes the first match, strips comma separators and parses the capture as
a decimal; with no match it returns 0.  In particular the spec's two
concrete examples hold. -/
theorem claim_C6_amount_extraction :
    (∀ text : List Char,
        scanPat pat1At (lowerL text) = none →
        scanPat pat2At (lowerL text) = none →
        scanPat pat3At (lowerL text) = none →
        extractAmount text = 0) ∧
      (∀ text cap : List Char,
        scanPat pat1At (lowerL text) = some cap →
        extractAmount text = parseFloatQ (removeCommas cap)) ∧
      (∀ text cap : List Char,
        scanPat pat1At (lowerL text) = none →
        scanPat pat2At (lowerL text) = some cap →
        extractAmount text = parseFloatQ (removeCommas cap)) ∧
      (∀ text cap : List Char,
        scanPat pat1At (lowerL text) = none →
        scanPat pat2At (lowerL text) = none →
        scanPat pat3At (lowerL text) = some cap →
        extractAmount text = parseFloatQ (removeCommas cap)) ∧
      extractAmount (strL "NGN 12,345.50 credited...") = 12345.5 ∧
      extractAmount (strL "no numbers here") = 0 := by
  refine ⟨?_, ?_, ?_, ?_, ?_, ?_⟩
  · intro text h1 h2 h3
    simp [extractAmount, h1, h2, h3]
  · intro text cap h1
    simp [extractAmount, h1]
  · intro text cap h1 h2
    simp [extractAmount, h1, h2]
  · intro text cap h1 h2 h3
    simp [extractAmount, h1, h2, h3]
  · have h1 : scanPat pat1At (lowerL (strL "NGN 12,345.50 credited...")) =
        some (strL "12,345.50") := by decide
    have h2 : removeCommas (strL "12,345.50") = strL "12345.50" := by decide
    simp only [extractAmount, h1, h2]
    have h3 : (strL "12345.50").takeWhile Char.isDigit = strL "12345" := by decide
    have h4 : (strL "12345.50").dropWhile Char.isDigit = strL ".50" := by decide
    simp only [parseFloatQ, h3, h4]
    have h5 : (strL ".50").head? = some '.' := by decide
    have h6 : ((strL ".50").drop 1).takeWhile Char.isDigit = strL "50" := by decide
    simp only [h5, h6, if_pos rfl]
    have h7 : (strL "12345").isEmpty = false := by decide
    have h8 : digitsVal (strL "12345") = 12345 := by decide
    have h9 : digitsVal (strL "50") = 50 := by decide
    have h10 : (strL "50").length = 2 := by decide
    simp only [h7, h8, h9, h10, Bool.false_and, if_neg Bool.false_ne_true]
    norm_num
  · have h1 : scanPat pat1At (lowerL (strL "no numbers here")) = none := by decide
    have h2 : scanPat pat2At (lowerL (strL "no numbers here")) = none := by decide
    have h3 : scanPat pat3At (lowerL (strL "no numbers here")) = none := by decide
    simp [extractAmount, h1, h2, h3]

theorem claim_C6_amount_extraction_witness :
    scanPat pat1At (lowerL (strL "no digits at all")) = none ∧
      extractAmount (strL "no digits at all") = 0 :=
  ⟨by decide,
    claim_C6_amount_extraction.1 (strL "no digits at all")
      (by decide) (by decide) (by decide)⟩

/-- Claim C9 is refuted by the source: the fallback date of
`extractDate` is the value of the `new Date()` expression evaluated
inline — an ambient read of the global clock, not an injected
parameter — so a text without a date pattern is stamped with whatever
the global clock happens to read, and two runs at different clock
readings disagree.  Modelling that ambient read as the `today` argument:
the fallback returns exactly the ambient clock sample. -/
theorem claim_C9_date_fallback_ambient :
    (∀ today : List Char, extractDate (strL "no date present") today = today) ∧
      ¬(strL "2026-10-11" = strL "2026-10-12") := by
  constructor
  · intro today
    have h : scanPat dateAltAt (strL "no date present") = none := by decide
    simp [extractDate, h]
  · decide

/-! ## Claim theorems: transaction assembly -/

/-- Claim C7: every rejection outcome of the add-transaction flow is
returned as a value carrying a nonempty reason string and leaves the
transaction list unchanged.  (The embedded flow is a total function:
no rejection is a thrown fault.) -/
theorem claim_C7_rejections_carry_reason (userName newId : String)
    (today smsText : List Char) (transactions : List Transaction)
    (h : isRejection (handleAddTransaction userName newId today smsText transactions).1
        = true) :
    reasonOf (handleAddTransaction userName newId today smsText transactions).1 ≠ "" ∧
      (handleAddTransaction userName newId today smsText transactions).2 = transactions := by
  simp only [handleAddTransaction, acceptCredit] at h ⊢
  split_ifs at h ⊢ <;>
    first
      | exact ⟨fun hcon => by simp [reasonOf] at hcon, rfl⟩
      | simp [isRejection] at h

theorem claim_C7_rejections_carry_reason_witness :
    isRejection
        (handleAddTransaction "" "id0" (strL "2026-01-01") (strL "") []).1 = true ∧
      (reasonOf
          (handleAddTransaction "" "id0" (strL "2026-01-01") (strL "") []).1 ≠ "" ∧
        (handleAddTransaction "" "id0" (strL "2026-01-01") (strL "") []).2 = []) :=
  ⟨by decide,
    claim_C7_rejections_carry_reason "" "id0" (strL "2026-01-01") (strL "") [] (by decide)⟩

/-- Claim C8: the positive-amount ledger invariant is preserved by every
add operation: `acceptCredit` refuses a parsed transaction whose
extracted amount is not positive, so if every stored transaction has a
positive amount, so does every transaction after the add. -/
theorem claim_C8_positive_amount_invariant (userName newId : String)
    (today smsText : List Char) (transactions : List Transaction)
    (h : allPositive transactions = true) :
    allPositive (handleAddTransaction userName newId today smsText transactions).2
      = true := by
  simp only [handleAddTransaction, acceptCredit]
  split_ifs <;>
    first
      | exact h
      | (rename_i hamt
         simp only [allPositive, List.all_cons, Bool.and_eq_true, decide_eq_true_eq]
         exact ⟨not_le.mp hamt, h⟩)

theorem claim_C8_positive_amount_invariant_witness :
    allPositive [] = true ∧
      allPositive
        (handleAddTransaction "" "id1" (strL "2026-01-01")
          (strL "credited N500") []).2 = true :=
  ⟨by decide,
    claim_C8_positive_amount_invariant "" "id1" (strL "2026-01-01")
      (strL "credited N500") [] (by decide)⟩

end TaxApp
